import Mathlib

/-!
Verification of the Redis claim controller
(zaqar/queues/storage/redis/claims.py) against its specification.

The Redis keyspace touched by the controller is embedded as an explicit
store for a single (queue, project) scope: key scoping
(utils.scope_claims_set, utils.scope_claim_messages) is a deterministic
injection, so distinct scopes never alias and one scope captures every
claim of a queue.  Hashes and the keyspace become association lists,
timeutils.utcnow_ts() becomes an explicit `now : Int` argument, and the
active-message batch returned by the message controller becomes an
explicit argument of `create`.
-/

namespace Zaqar

/-- Constant RETRY_CLAIM_TIMEOUT from claims.py line 33. -/
def RETRY_CLAIM_TIMEOUT : Int := 10

/-- Modelled from the spec: the message record (messages.py is not part
of the sources).  Spec section 3 lists the claim-relevant fields: `id`,
`ttl`, `expires`, `claim_id` (absent/null when unclaimed) and
`claim_expires`.  The pair from_redis/to_redis round-trips the whole
record keyed by the message id, so the record is the structure itself. -/
structure Message where
  id : String
  ttl : Int
  expires : Int
  claim_id : Option String
  claim_expires : Int
  deriving DecidableEq

/-- The claim info hash written by `create` (claims.py lines 240-246):
fields `id`, `t` (ttl) and `e` (expires). -/
structure ClaimRecord where
  id : String
  t : Int
  e : Int
  deriving DecidableEq

/-- The slice of the Redis keyspace owned by one (queue, project) scope:
the claims set, the claim-info hashes, the per-claim message lists, the
message records, and the claimed counter maintained through the queue
controller. -/
structure Store where
  claims_set : List String
  claim_records : List (String × ClaimRecord)
  claim_msg_lists : List (String × List String)
  messages : List (String × Message)
  claimed_counter : Int
  deriving DecidableEq

/-- Lookup of a key in an association list (Redis HGETALL of a whole
hash, or GET of one key); `none` plays the role of the empty reply
returned for a missing key. -/
def alookup (l : List (String × α)) (k : String) : Option α :=
  match l with
  | [] => none
  | p :: ps => if p.1 == k then some p.2 else alookup ps k

/-- Overwrite the value stored at key `k`, inserting the key when it is
absent (Redis SET / full-hash HMSET). -/
def aset (l : List (String × α)) (k : String) (v : α) : List (String × α) :=
  match l with
  | [] => [(k, v)]
  | p :: ps => if p.1 == k then (k, v) :: ps else p :: aset ps k v

/-- Redis DEL: remove the key and its value from the keyspace. -/
def adel (l : List (String × α)) (k : String) : List (String × α) :=
  match l with
  | [] => []
  | p :: ps => if p.1 == k then adel ps k else p :: adel ps k

/-- Errors surfaced by the controller.  `typeError` stands for the
TypeError the Python raises when `_get_claim_info` coerces a missing
hash field with int(None). -/
inductive Err where
  | claimDoesNotExist
  | claimConflict
  | typeError
  deriving DecidableEq

deriving instance DecidableEq for Except

/-- Function `_msg_would_expire` (claims.py lines 367-368):
`message.expires < now`. -/
def _msg_would_expire (message : Message) (now : Int) : Bool :=
  message.expires < now

/-- Method `ClaimController._exists` (claims.py lines 78-94): `false`
when the id is not a member of the claims set; otherwise read field `e`
of the claim hash (raising, like int(None), when the hash is missing)
and answer `false` when `now > expires`, `true` otherwise. -/
def _exists (s : Store) (claim_id : String) (now : Int) : Except Err Bool :=
  if ¬ s.claims_set.contains claim_id then
    .ok false
  else
    match alookup s.claim_records claim_id with
    | none => .error .typeError
    | some r =>
      if now > r.e then
        .ok false
      else
        .ok true

/-- Key of the per-claim message list:
utils.scope_claim_messages(claim_id, CLAIM_MESSAGES_SUFFIX). -/
def scope_claim_messages (claim_id : String) : String :=
  claim_id ++ "_messages"

/-- Method `_get_claimed_message_keys` (claims.py lines 96-97): LRANGE
of the whole per-claim list; a missing key yields the empty list. -/
def claimMsgKeys (s : Store) (claim_id : String) : List String :=
  (alookup s.claim_msg_lists (scope_claim_messages claim_id)).getD []

/-- Sequence of msg.to_redis(pipe) calls: write every record of the
batch back into the keyspace under its own message id. -/
def writeBack (ms : List (String × Message)) (l : List Message) :
    List (String × Message) :=
  l.foldl (fun ms m => aset ms m.id m) ms

/-- Modelled from the spec: method `_inc_claimed` of the queue
controller (not in the sources) stages an adjustment of the claimed
counter by `delta` into the batch (spec section 4.4). -/
def _inc_claimed (s : Store) (delta : Int) : Store :=
  { s with claimed_counter := s.claimed_counter + delta }

/-- The claim-metadata dict built by `get` (claims.py lines 135-139):
fields `age`, `ttl` and `id`. -/
structure ClaimMeta where
  age : Int
  ttl : Int
  id : String
  deriving DecidableEq

/-- Method `ClaimController.get` (claims.py lines 107-141): fail with
ClaimDoesNotExist when `_exists` is negative; otherwise read the message
id list of the claim, HGETALL every key and keep only the non-empty
materialisations, then read `e` and `t` from the claim hash and return
age = now - (e - t), ttl = t and the claim id together with the
messages. -/
def get (s : Store) (claim_id : String) (now : Int) :
    Except Err (ClaimMeta × List Message) :=
  match _exists s claim_id now with
  | .error e => .error e
  | .ok false => .error .claimDoesNotExist
  | .ok true =>
    let msg_keys := claimMsgKeys s claim_id
    let raw_messages := msg_keys.map (alookup s.messages)
    let basic_messages := raw_messages.filterMap id
    match alookup s.claim_records claim_id with
    | none => .error .typeError
    | some r =>
      .ok ({ age := now - (r.e - r.t), ttl := r.t, id := claim_id },
           basic_messages)

/-- The per-message mutation shared by `create` (claims.py lines
222-228) and `update` (lines 300-306): bind the message to the claim,
then extend its lifetime iff it would otherwise expire before
`msg_expires`. -/
def bindMsg (claim_id : String) (claim_expires msg_expires msg_ttl : Int)
    (msg : Message) : Message :=
  let msg := { msg with claim_id := some claim_id,
                        claim_expires := claim_expires }
  if _msg_would_expire msg msg_expires then
    { msg with ttl := msg_ttl, expires := msg_expires }
  else
    msg

/-- The value returned by a successful `create`: the claim id (absent
for an empty batch) and the batch of messages written. -/
abbrev CreateRet := Option String × List Message

/-- The writes staged and committed by one successful pass of the retry
loop of `create` (claims.py lines 216-259), given the batch `msg_list`
read from the message controller: bind every message (RPUSHing its id
onto the message list of the claim and writing the record back), HMSET
the claim hash with id, t and e, SADD the claim id into the claims set,
and increment the claimed counter by the batch size. -/
def createCommit (s : Store) (claim_id : String) (ttl grace : Int)
    (msg_list : List Message) (now : Int) : CreateRet × Store :=
  let msg_ttl := ttl + grace
  let claim_expires := now + ttl
  let msg_expires := claim_expires + grace
  let claim_key := scope_claim_messages claim_id
  let bound := msg_list.map (bindMsg claim_id claim_expires msg_expires msg_ttl)
  let s :=
    { s with
      claim_msg_lists :=
        aset s.claim_msg_lists claim_key
          ((alookup s.claim_msg_lists claim_key).getD []
            ++ bound.map Message.id),
      messages := writeBack s.messages bound,
      claim_records :=
        aset s.claim_records claim_id
          { id := claim_id, t := ttl, e := claim_expires },
      claims_set :=
        if s.claims_set.contains claim_id then s.claims_set
        else claim_id :: s.claims_set }
  ((some claim_id, bound), _inc_claimed s msg_list.length)

/-- One pass of the body of `create` (claims.py lines 190-259) without
the retry machinery: if the batch read from the message controller is
empty, return (None, []) committing nothing (lines 198-199); otherwise
stage and commit the writes of `createCommit`. -/
def createIter (s : Store) (claim_id : String) (ttl grace : Int)
    (msg_list : List Message) (now : Int) : CreateRet × Store :=
  if msg_list.isEmpty then
    ((none, []), s)
  else
    createCommit s claim_id ttl grace msg_list now

/-- The environment one pass of the while loop of `create` observes: the
clock value tested by the loop condition (claims.py line 176), the
active batch the message controller returns (lines 190-194), the clock
value read at line 216, and whether pipe.execute() raises WatchError
because the watched counter moved (lines 258-262). -/
structure LoopEnv where
  loop_now : Int
  batch : List Message
  now : Int
  watch_fired : Bool
  deriving DecidableEq

/-- The retry loop of `create` (claims.py lines 176-264): while the wall
clock is within RETRY_CLAIM_TIMEOUT of `start_ts`, run one pass; a pass
that reads an empty batch or commits returns, one aborted by WatchError
leaves the store untouched and continues; once the budget is exhausted
raise ClaimConflict.  The list argument supplies the environments of the
successive passes; in the source the clock always leaves the budget
eventually, so only lists whose dropWhile on the budget test is
non-empty model a real execution. -/
def createLoop (s : Store) (claim_id : String) (ttl grace : Int)
    (start_ts : Int) : List LoopEnv → Except Err (CreateRet × Store)
  | [] => .error .claimConflict
  | env :: rest =>
    if env.loop_now - start_ts < RETRY_CLAIM_TIMEOUT then
      if env.batch.isEmpty then
        .ok ((none, []), s)
      else if env.watch_fired then
        createLoop s claim_id ttl grace start_ts rest
      else
        .ok (createCommit s claim_id ttl grace env.batch env.now)
    else
      .error .claimConflict

/-- Budget test of the retry loop (claims.py line 176). -/
def withinBudget (start_ts : Int) (env : LoopEnv) : Bool :=
  env.loop_now - start_ts < RETRY_CLAIM_TIMEOUT

/-- The observable store interactions of one pass of the loop body of
`create`: the active batch is read at claims.py lines 190-194, the
empty-batch return happens at line 199, the watch is placed at line 213,
the writes are staged at lines 216-256 and committed at line 258. -/
inductive Ev where
  | readActiveBatch
  | returnEmpty
  | watchCounter
  | stageWrites
  | execCommit
  deriving DecidableEq

/-- The sequence of store interactions one pass of the loop body
performs, in source order (claims.py lines 190-258), keyed on whether
the batch read turns out empty. -/
def createIterTrace (batchEmpty : Bool) : List Ev :=
  if batchEmpty then
    [.readActiveBatch, .returnEmpty]
  else
    [.readActiveBatch, .watchCounter, .stageWrites, .execCommit]

/-- Method `ClaimController.update` (claims.py lines 266-317): fail with
ClaimDoesNotExist when `_exists` is negative; otherwise recompute
claim_expires = now + ttl, HGETALL every key of the stored message list
of the claim and rebind every non-empty materialisation with the same
would-expire rule as `create`, writing the records back, and HMSET the
fields `t` and `e` of the claim hash.  The claim hash is present
whenever `_exists` answered positively, so the none branch of the final
match is unreachable. -/
def update (s : Store) (claim_id : String) (ttl grace : Int) (now : Int) :
    Except Err Store :=
  match _exists s claim_id now with
  | .error e => .error e
  | .ok false => .error .claimDoesNotExist
  | .ok true =>
    let claim_expires := now + ttl
    let msg_ttl := ttl + grace
    let msg_expires := claim_expires + grace
    let msg_keys := claimMsgKeys s claim_id
    let claimed_msgs := msg_keys.map (alookup s.messages)
    let rebound := claimed_msgs.filterMap
      (Option.map (bindMsg claim_id claim_expires msg_expires msg_ttl))
    let records := match alookup s.claim_records claim_id with
      | some r => aset s.claim_records claim_id
          { r with t := ttl, e := claim_expires }
      | none => s.claim_records
    .ok { s with
          messages := writeBack s.messages rebound,
          claim_records := records }

/-- Method `ClaimController.delete` (claims.py lines 319-364): return
silently, changing nothing, when `_exists` is negative; otherwise
HGETALL every key of the message list of the claim, then in one batch
SREM the claim id from the claims set, DEL the claim hash and the
message list, write back every non-empty materialisation with claim_id
cleared and claim_expires set to now, and increment the claimed counter
by -1 * len(claimed_msgs) — the length of the HGETALL result list,
empty results included. -/
def delete (s : Store) (claim_id : String) (now : Int) :
    Except Err Store :=
  match _exists s claim_id now with
  | .error e => .error e
  | .ok false => .ok s
  | .ok true =>
    let claim_messages_key := scope_claim_messages claim_id
    let msg_keys := claimMsgKeys s claim_id
    let claimed_msgs := msg_keys.map (alookup s.messages)
    let released := claimed_msgs.filterMap
      (Option.map (fun m => { m with claim_id := none, claim_expires := now }))
    .ok (_inc_claimed
      { s with
        claims_set := s.claims_set.filter (· != claim_id),
        claim_records := adel s.claim_records claim_id,
        claim_msg_lists := adel s.claim_msg_lists claim_messages_key,
        messages := writeBack s.messages released }
      (-1 * claimed_msgs.length))

/-- Keyspace invariant of the message store: every message record is
stored under its own id (to_redis writes record m at key m.id). -/
def WellKeyed (ms : List (String × Message)) : Prop :=
  ∀ p ∈ ms, p.2.id = p.1

instance : DecidablePred WellKeyed := fun ms =>
  List.decidableBAll _ ms

/-- Specification predicate distilled from claims.py lines 222-228 and
300-306: the written record m2 derived from prior record m carries the
claim binding, its expiry is never below claim expiry plus grace, and
ttl and expires are overwritten exactly when the prior expires fell
below claim_expires + grace. -/
def ClaimBound (cid : String) (ttl grace now : Int) (m m2 : Message) : Prop :=
  m2.claim_id = some cid ∧
  m2.claim_expires = now + ttl ∧
  now + ttl + grace ≤ m2.expires ∧
  (if m.expires < now + ttl + grace
   then m2.expires = now + ttl + grace ∧ m2.ttl = ttl + grace
   else m2.expires = m.expires ∧ m2.ttl = m.ttl)

/-! Concrete states used to exercise the operations. -/

/-- Store with every keyspace slice empty. -/
def emptyStore : Store :=
  { claims_set := [], claim_records := [], claim_msg_lists := [],
    messages := [], claimed_counter := 0 }

/-- A long-lived unclaimed message. -/
def msgFresh : Message :=
  { id := "m1", ttl := 60, expires := 1000, claim_id := none,
    claim_expires := 0 }

/-- A message about to expire, triggering the would-expire extension. -/
def msgShort : Message :=
  { id := "m2", ttl := 5, expires := 103, claim_id := none,
    claim_expires := 0 }

/-- A message currently bound to a different claim. -/
def msgOther : Message :=
  { id := "m3", ttl := 60, expires := 1000, claim_id := some "other",
    claim_expires := 500 }

/-- Store resulting from a create with ttl = 0 at instant 100. -/
def sC2 : Store :=
  (createIter emptyStore "c2cl" 0 60 [msgFresh] 100).2

/-- Store holding live claim cu over m3 (bound to another claim) and m2. -/
def sU : Store :=
  { claims_set := ["cu"],
    claim_records := [("cu", { id := "cu", t := 50, e := 240 })],
    claim_msg_lists := [("cu_messages", ["m3", "m2"])],
    messages := [("m3", msgOther), ("m2", msgShort)],
    claimed_counter := 2 }

/-- Result of renewing claim cu on sU at instant 200. -/
def sUpdRes : Store :=
  match update sU "cu" 10 5 200 with
  | .ok s => s
  | _ => emptyStore

/-- Store holding live claim cd whose id list names a present message p1
and an independently deleted message dg. -/
def sDel : Store :=
  { claims_set := ["cd"],
    claim_records := [("cd", { id := "cd", t := 20, e := 120 })],
    claim_msg_lists := [("cd_messages", ["p1", "dg"])],
    messages := [("p1", { id := "p1", ttl := 30, expires := 400,
                          claim_id := some "cd", claim_expires := 120 })],
    claimed_counter := 2 }

/-- Store holding live claim cg over a single independently deleted
message gone, with claimed counter 5. -/
def sC7ce : Store :=
  { claims_set := ["cg"],
    claim_records := [("cg", { id := "cg", t := 10, e := 300 })],
    claim_msg_lists := [("cg_messages", ["gone"])],
    messages := [],
    claimed_counter := 5 }

/-- Store holding a passively expired claim ce (expires 100). -/
def sExp : Store :=
  { claims_set := ["ce"],
    claim_records := [("ce", { id := "ce", t := 5, e := 100 })],
    claim_msg_lists := [("ce_messages", ["p1"])],
    messages := [("p1", { id := "p1", ttl := 30, expires := 400,
                          claim_id := some "ce", claim_expires := 100 })],
    claimed_counter := 1 }

/-- Store holding claim cx whose stored expires equals the observation
instant 100. -/
def sEdge : Store :=
  { claims_set := ["cx"],
    claim_records := [("cx", { id := "cx", t := 0, e := 100 })],
    claim_msg_lists := [], messages := [], claimed_counter := 0 }

/-- Loop pass aborted by WatchError inside the budget. -/
def envFail : LoopEnv :=
  { loop_now := 0, batch := [msgFresh], now := 1, watch_fired := true }

/-- Loop pass observed after the retry budget has elapsed. -/
def envLate : LoopEnv :=
  { loop_now := 20, batch := [msgFresh], now := 21, watch_fired := false }

/-- Loop pass that reads an empty active batch inside the budget. -/
def envEmpty : LoopEnv :=
  { loop_now := 0, batch := [], now := 1, watch_fired := false }

/-! Helper lemmas about the keyspace primitives. -/

theorem alookup_aset_self (l : List (String × α)) (k : String) (v : α) :
    alookup (aset l k v) k = some v := by
  induction l with
  | nil => simp [aset, alookup]
  | cons p ps ih =>
    by_cases h : p.1 = k
    · simp [aset, alookup, h]
    · simp [aset, alookup, h, ih]

theorem alookup_aset_ne (l : List (String × α)) (k k' : String) (v : α)
    (h : k' ≠ k) : alookup (aset l k v) k' = alookup l k' := by
  induction l with
  | nil => simp [aset, alookup, Ne.symm h]
  | cons p ps ih =>
    by_cases hp : p.1 = k
    · subst hp
      simp [aset, alookup, Ne.symm h]
    · by_cases hp' : p.1 = k'
      · simp [aset, alookup, hp, hp', h]
      · simp [aset, alookup, hp, hp', ih]

theorem alookup_adel_self (l : List (String × α)) (k : String) :
    alookup (adel l k) k = none := by
  induction l with
  | nil => simp [adel, alookup]
  | cons p ps ih =>
    by_cases h : p.1 = k
    · simp [adel, h, ih]
    · simp [adel, alookup, h, ih]

theorem alookup_adel_ne (l : List (String × α)) (k k' : String)
    (h : k' ≠ k) : alookup (adel l k) k' = alookup l k' := by
  induction l with
  | nil => simp [adel]
  | cons p ps ih =>
    by_cases hp : p.1 = k
    · subst hp
      simp [adel, alookup, Ne.symm h, ih]
    · simp [adel, alookup, hp, ih]

theorem alookup_mem (l : List (String × α)) (k : String) (v : α)
    (h : alookup l k = some v) : (k, v) ∈ l := by
  induction l with
  | nil => simp [alookup] at h
  | cons p ps ih =>
    by_cases hp : p.1 = k
    · simp [alookup, hp] at h
      obtain ⟨a, b⟩ := p
      simp only at hp h
      subst hp
      subst h
      exact List.mem_cons_self _ _
    · simp [alookup, hp] at h
      exact List.mem_cons_of_mem _ (ih h)

theorem WellKeyed.lookup_id (ms : List (String × Message))
    (h : WellKeyed ms) (k : String) (m : Message)
    (hl : alookup ms k = some m) : m.id = k :=
  h (k, m) (alookup_mem ms k m hl)

theorem bindMsg_id (claim_id : String) (ce me mt : Int) (m : Message) :
    (bindMsg claim_id ce me mt m).id = m.id := by
  simp only [bindMsg]
  split <;> rfl

theorem alookup_writeBack_not_mem (ms : List (String × Message))
    (l : List Message) (k : String) (h : k ∉ l.map Message.id) :
    alookup (writeBack ms l) k = alookup ms k := by
  induction l generalizing ms with
  | nil => rfl
  | cons m rest ih =>
    simp only [List.map_cons, List.mem_cons, not_or] at h
    simp only [writeBack, List.foldl_cons]
    rw [show (List.foldl (fun ms m => aset ms m.id m)
          (aset ms m.id m) rest) = writeBack (aset ms m.id m) rest from rfl,
        ih _ h.2, alookup_aset_ne _ _ _ _ h.1]

theorem alookup_writeBack_mem (ms : List (String × Message))
    (l : List Message) (m : Message) (hnd : (l.map Message.id).Nodup)
    (hm : m ∈ l) : alookup (writeBack ms l) m.id = some m := by
  induction l generalizing ms with
  | nil => cases hm
  | cons x rest ih =>
    simp only [List.map_cons, List.nodup_cons] at hnd
    rcases List.mem_cons.mp hm with hx | hx
    · subst hx
      simp only [writeBack, List.foldl_cons]
      rw [show (List.foldl (fun ms m => aset ms m.id m)
            (aset ms m.id m) rest) = writeBack (aset ms m.id m) rest from rfl,
          alookup_writeBack_not_mem _ _ _ hnd.1, alookup_aset_self]
    · simp only [writeBack, List.foldl_cons]
      exact ih (aset ms x.id x) hnd.2 hx

theorem mem_ids_filterMap (keys : List String)
    (G : String → Option Message)
    (hG : ∀ k m, G k = some m → m.id = k) (m : Message)
    (h : m ∈ keys.filterMap G) : m.id ∈ keys := by
  rcases List.mem_filterMap.mp h with ⟨k, hk, hGk⟩
  rw [hG k m hGk]
  exact hk

theorem nodup_ids_filterMap (keys : List String)
    (G : String → Option Message)
    (hG : ∀ k m, G k = some m → m.id = k) (hnd : keys.Nodup) :
    ((keys.filterMap G).map Message.id).Nodup := by
  induction keys with
  | nil => simp
  | cons k ks ih =>
    simp only [List.nodup_cons] at hnd
    cases hGk : G k with
    | none => simpa [List.filterMap_cons, hGk] using ih hnd.2
    | some m =>
      simp only [List.filterMap_cons, hGk, List.map_cons, List.nodup_cons]
      refine ⟨?_, ih hnd.2⟩
      intro hmem
      rcases List.mem_map.mp hmem with ⟨m', hm', hid⟩
      have : m'.id ∈ ks := mem_ids_filterMap ks G hG m' hm'
      rw [hid, hG k m hGk] at this
      exact hnd.1 this

theorem writeBack_filterMap_lookup (ms : List (String × Message))
    (keys : List String) (f : Message → Message)
    (hf : ∀ m, (f m).id = m.id) (hkeyed : WellKeyed ms) (hnd : keys.Nodup)
    (k : String) (hk : k ∈ keys) (m : Message)
    (hm : alookup ms k = some m) :
    alookup (writeBack ms ((keys.map (alookup ms)).filterMap (Option.map f)))
        k = some (f m) := by
  set G : String → Option Message := fun k => (alookup ms k).map f with hG
  have hreb : (keys.map (alookup ms)).filterMap (Option.map f)
      = keys.filterMap G := by
    rw [List.filterMap_map]
    rfl
  have hGid : ∀ k m2, G k = some m2 → m2.id = k := by
    intro k' m2 h
    simp only [hG, Option.map_eq_some'] at h
    rcases h with ⟨m0, hm0, rfl⟩
    rw [hf]
    exact hkeyed.lookup_id ms k' m0 hm0
  have hmem : f m ∈ keys.filterMap G :=
    List.mem_filterMap.mpr ⟨k, hk, by simp [hG, hm]⟩
  have hid : (f m).id = k := by
    rw [hf]
    exact hkeyed.lookup_id ms k m hm
  rw [hreb, ← hid]
  exact alookup_writeBack_mem ms (keys.filterMap G) (f m)
    (nodup_ids_filterMap keys G hGid hnd) hmem

theorem writeBack_filterMap_lookup_not_mem (ms : List (String × Message))
    (keys : List String) (f : Message → Message)
    (hf : ∀ m, (f m).id = m.id) (hkeyed : WellKeyed ms)
    (k : String) (hk : k ∉ keys) :
    alookup (writeBack ms ((keys.map (alookup ms)).filterMap (Option.map f)))
        k = alookup ms k := by
  set G : String → Option Message := fun k => (alookup ms k).map f with hG
  have hGid : ∀ k m2, G k = some m2 → m2.id = k := by
    intro k' m2 h
    simp only [hG, Option.map_eq_some'] at h
    rcases h with ⟨m0, hm0, rfl⟩
    rw [hf]
    exact hkeyed.lookup_id ms k' m0 hm0
  have hreb : (keys.map (alookup ms)).filterMap (Option.map f)
      = keys.filterMap G := by
    rw [List.filterMap_map]
    rfl
  rw [hreb]
  apply alookup_writeBack_not_mem
  intro hmem
  rcases List.mem_map.mp hmem with ⟨m2, hm2, hid⟩
  have h2 : m2.id ∈ keys := mem_ids_filterMap keys G hGid m2 hm2
  rw [hid] at h2
  exact hk h2

theorem exists_ok_true_iff (s : Store) (cid : String) (now : Int) :
    _exists s cid now = .ok true ↔
      cid ∈ s.claims_set ∧
        ∃ r, alookup s.claim_records cid = some r ∧ now ≤ r.e := by
  unfold _exists
  by_cases hm : cid ∈ s.claims_set
  · cases hr : alookup s.claim_records cid with
    | none =>
      rw [if_neg (by simp [hm])]
      simp only [hr]
      simp
    | some r =>
      rw [if_neg (by simp [hm])]
      simp only [hr]
      by_cases he : now > r.e
      · rw [if_pos he]
        constructor
        · intro h
          exact absurd h (by simp)
        · rintro ⟨-, r', hr', he'⟩
          cases hr'
          exact absurd he' (by omega)
      · rw [if_neg he]
        constructor
        · intro _
          exact ⟨hm, r, rfl, by omega⟩
        · intro _
          rfl
  · simp [hm]

theorem exists_ok_false_not_mem (s : Store) (cid : String) (now : Int)
    (h : cid ∉ s.claims_set) : _exists s cid now = .ok false := by
  unfold _exists
  simp [h]

theorem exists_ok_false_expired (s : Store) (cid : String) (now : Int)
    (r : ClaimRecord) (hr : alookup s.claim_records cid = some r)
    (he : now > r.e) : _exists s cid now = .ok false := by
  unfold _exists
  by_cases hm : cid ∈ s.claims_set
  · simp [hm, hr, he]
  · simp [hm]

theorem bindMsg_spec (cid : String) (ce me mt : Int) (m : Message) :
    (bindMsg cid ce me mt m).claim_id = some cid ∧
    (bindMsg cid ce me mt m).claim_expires = ce ∧
    ((bindMsg cid ce me mt m).expires = m.expires ∨
      (bindMsg cid ce me mt m).expires = me) ∧
    (if m.expires < me
     then (bindMsg cid ce me mt m).expires = me ∧
          (bindMsg cid ce me mt m).ttl = mt
     else (bindMsg cid ce me mt m).expires = m.expires ∧
          (bindMsg cid ce me mt m).ttl = m.ttl) := by
  unfold bindMsg _msg_would_expire
  by_cases h : m.expires < me
  · simp [h]
  · simp [h]

theorem bindMsg_expires_ge (cid : String) (ce me mt : Int) (m : Message) :
    me ≤ (bindMsg cid ce me mt m).expires := by
  unfold bindMsg _msg_would_expire
  by_cases h : m.expires < me
  · simp [h]
  · simp [h]
    omega

theorem update_writes (s : Store) (cid : String) (ttl grace now : Int)
    (s' : Store) (hup : update s cid ttl grace now = .ok s')
    (hkeyed : WellKeyed s.messages) (hnd : (claimMsgKeys s cid).Nodup)
    (k : String) (hk : k ∈ claimMsgKeys s cid) (m : Message)
    (hm : alookup s.messages k = some m) :
    alookup s'.messages k =
      some (bindMsg cid (now + ttl) (now + ttl + grace) (ttl + grace) m) := by
  cases hex : _exists s cid now with
  | error e => simp [update, hex] at hup
  | ok b =>
    cases b with
    | false => simp [update, hex] at hup
    | true =>
      simp only [update, hex] at hup
      have hmsgs : s'.messages = writeBack s.messages
          (((claimMsgKeys s cid).map (alookup s.messages)).filterMap
            (Option.map
              (bindMsg cid (now + ttl) (now + ttl + grace) (ttl + grace)))) := by
        cases hup
        rfl
      rw [hmsgs]
      exact writeBack_filterMap_lookup s.messages (claimMsgKeys s cid) _
        (fun m => bindMsg_id cid (now + ttl) (now + ttl + grace)
          (ttl + grace) m)
        hkeyed hnd k hk m hm

theorem claimBound_bindMsg (cid : String) (ttl grace now : Int)
    (m : Message) :
    ClaimBound cid ttl grace now m
      (bindMsg cid (now + ttl) (now + ttl + grace) (ttl + grace) m) := by
  obtain ⟨h1, h2, -, h4⟩ :=
    bindMsg_spec cid (now + ttl) (now + ttl + grace) (ttl + grace) m
  exact ⟨h1, h2, bindMsg_expires_ge cid (now + ttl) (now + ttl + grace)
    (ttl + grace) m, h4⟩

theorem not_mem_filter_ne (l : List String) (a : String) :
    a ∉ l.filter (· != a) := by
  intro h
  have := (List.mem_filter.mp h).2
  simp at this

theorem createCommit_snd (s : Store) (cid : String) (ttl grace : Int)
    (msg_list : List Message) (now : Int) :
    (createCommit s cid ttl grace msg_list now).2 =
      { claims_set := if s.claims_set.contains cid then s.claims_set
                      else cid :: s.claims_set,
        claim_records := aset s.claim_records cid
          { id := cid, t := ttl, e := now + ttl },
        claim_msg_lists := aset s.claim_msg_lists (scope_claim_messages cid)
          ((alookup s.claim_msg_lists (scope_claim_messages cid)).getD []
            ++ (msg_list.map (bindMsg cid (now + ttl) (now + ttl + grace)
                  (ttl + grace))).map Message.id),
        messages := writeBack s.messages
          (msg_list.map (bindMsg cid (now + ttl) (now + ttl + grace)
            (ttl + grace))),
        claimed_counter := s.claimed_counter + msg_list.length } := rfl

theorem createCommit_mem_claims_set (s : Store) (cid : String)
    (ttl grace : Int) (msg_list : List Message) (now : Int) :
    cid ∈ ((createCommit s cid ttl grace msg_list now).2).claims_set := by
  rw [createCommit_snd]
  by_cases h : cid ∈ s.claims_set
  · simp [h]
  · simp [h]

theorem createCommit_claim_record (s : Store) (cid : String)
    (ttl grace : Int) (msg_list : List Message) (now : Int) :
    alookup ((createCommit s cid ttl grace msg_list now).2).claim_records
        cid = some { id := cid, t := ttl, e := now + ttl } := by
  rw [createCommit_snd]
  exact alookup_aset_self _ _ _

theorem delete_ok_false (s : Store) (cid : String) (now : Int)
    (hex : _exists s cid now = .ok false) : delete s cid now = .ok s := by
  simp [delete, hex]

theorem delete_ok_true (s : Store) (cid : String) (now : Int)
    (hex : _exists s cid now = .ok true) :
    delete s cid now = .ok
      { claims_set := s.claims_set.filter (· != cid),
        claim_records := adel s.claim_records cid,
        claim_msg_lists := adel s.claim_msg_lists (scope_claim_messages cid),
        messages := writeBack s.messages
          (((claimMsgKeys s cid).map (alookup s.messages)).filterMap
            (Option.map (fun m =>
              { m with claim_id := none, claim_expires := now }))),
        claimed_counter := s.claimed_counter +
          -1 * ((claimMsgKeys s cid).map (alookup s.messages)).length } := by
  simp only [delete, hex, _inc_claimed]

theorem createLoop_conflict_iff (s : Store) (cid : String)
    (ttl grace start_ts : Int) (envs : List LoopEnv) :
    envs.dropWhile (withinBudget start_ts) ≠ [] →
    (createLoop s cid ttl grace start_ts envs = .error .claimConflict ↔
      ∀ env ∈ envs.takeWhile (withinBudget start_ts),
        env.batch ≠ [] ∧ env.watch_fired = true) := by
  induction envs with
  | nil =>
    intro hterm
    simp at hterm
  | cons e es ih =>
    intro hterm
    by_cases hw : withinBudget start_ts e = true
    · have hw' : e.loop_now - start_ts < RETRY_CLAIM_TIMEOUT := by
        simpa [withinBudget] using hw
      have hdw : (e :: es).dropWhile (withinBudget start_ts) =
          es.dropWhile (withinBudget start_ts) := by
        simp [List.dropWhile, hw]
      have htw : (e :: es).takeWhile (withinBudget start_ts) =
          e :: es.takeWhile (withinBudget start_ts) := by
        simp [List.takeWhile, hw]
      rw [htw]
      cases hbe : e.batch with
      | nil =>
        have hL : createLoop s cid ttl grace start_ts (e :: es) =
            .ok ((none, []), s) := by
          simp [createLoop, hw', hbe]
        rw [hL]
        constructor
        · intro hcon
          exact absurd hcon (by simp)
        · intro hall
          exact absurd hbe (hall e (List.mem_cons_self _ _)).1
      | cons hd tl =>
        have hne : e.batch ≠ [] := by simp [hbe]
        cases hwf : e.watch_fired with
        | true =>
          have hL : createLoop s cid ttl grace start_ts (e :: es) =
              createLoop s cid ttl grace start_ts es := by
            simp [createLoop, hw', hbe, hwf]
          rw [hL, ih (by rwa [hdw] at hterm)]
          constructor
          · intro hall env henv
            rcases List.mem_cons.mp henv with rfl | henv
            · exact ⟨hne, hwf⟩
            · exact hall env henv
          · intro hall env henv
            exact hall env (List.mem_cons_of_mem _ henv)
        | false =>
          have hL : createLoop s cid ttl grace start_ts (e :: es) =
              .ok (createCommit s cid ttl grace e.batch e.now) := by
            simp [createLoop, hw', hbe, hwf]
          rw [hL]
          constructor
          · intro hcon
            exact absurd hcon (by simp)
          · intro hall
            have := (hall e (List.mem_cons_self _ _)).2
            rw [hwf] at this
            exact absurd this (by simp)
    · have hw' : ¬ e.loop_now - start_ts < RETRY_CLAIM_TIMEOUT := by
        intro hcon
        exact hw (by simpa [withinBudget] using hcon)
      have hwb : withinBudget start_ts e = false := by
        simpa using hw
      have htw : (e :: es).takeWhile (withinBudget start_ts) = [] := by
        simp [List.takeWhile, hwb]
      rw [htw]
      have hL : createLoop s cid ttl grace start_ts (e :: es) =
          .error .claimConflict := by
        simp [createLoop, hw']
      rw [hL]
      simp

theorem createLoop_skip_aborted (s : Store) (cid : String)
    (ttl grace start_ts : Int) (env : LoopEnv) (rest : List LoopEnv)
    (hw : withinBudget start_ts env = true) (hb : env.batch ≠ [])
    (hwf : env.watch_fired = true) :
    createLoop s cid ttl grace start_ts (env :: rest) =
      createLoop s cid ttl grace start_ts rest := by
  have hw' : env.loop_now - start_ts < RETRY_CLAIM_TIMEOUT := by
    simpa [withinBudget] using hw
  have hbe : env.batch.isEmpty = false := by
    cases h : env.batch
    · exact absurd h hb
    · rfl
  simp [createLoop, hw', hbe, hwf]

/-! Claims. -/

/-- C1: after every successful create with a non-empty batch, and after
every update, every message written by the operation has claim_id equal
to the id of the claim, claim_expires equal to the claim expiry
(now + ttl), and expires at least claim_expires + grace; expires and
ttl are overwritten with claim_expires + grace and ttl + grace exactly
when the prior expires was below claim_expires + grace, and are left
unchanged otherwise. -/
theorem c1_claim_message_binding (s : Store) (cid : String)
    (ttl grace now : Int) :
    (∀ (msg_list : List Message), msg_list ≠ [] →
      ∀ i : Nat, i < msg_list.length →
        ∃ m m2, msg_list.get? i = some m ∧
          ((createIter s cid ttl grace msg_list now).1.2).get? i = some m2 ∧
          ClaimBound cid ttl grace now m m2) ∧
    (∀ (s2 : Store), update s cid ttl grace now = .ok s2 →
      WellKeyed s.messages → (claimMsgKeys s cid).Nodup →
      ∀ k ∈ claimMsgKeys s cid, ∀ m, alookup s.messages k = some m →
        ∃ m2, alookup s2.messages k = some m2 ∧
          ClaimBound cid ttl grace now m m2) := by
  constructor
  · intro msg_list hne i hi
    have hemp : msg_list.isEmpty = false := by
      cases h : msg_list
      · exact absurd h hne
      · rfl
    have hlist : (createIter s cid ttl grace msg_list now).1.2 =
        msg_list.map
          (bindMsg cid (now + ttl) (now + ttl + grace) (ttl + grace)) := by
      simp [createIter, hemp, createCommit]
    obtain ⟨m, hm⟩ : ∃ m, msg_list.get? i = some m := by
      rw [List.get?_eq_get hi]
      exact ⟨_, rfl⟩
    refine ⟨m, bindMsg cid (now + ttl) (now + ttl + grace) (ttl + grace) m,
      hm, ?_, claimBound_bindMsg cid ttl grace now m⟩
    rw [hlist, List.get?_map, hm]
    rfl
  · intro s2 hup hkeyed hnd k hk m hm
    exact ⟨bindMsg cid (now + ttl) (now + ttl + grace) (ttl + grace) m,
      update_writes s cid ttl grace now s2 hup hkeyed hnd k hk m hm,
      claimBound_bindMsg cid ttl grace now m⟩

/-- Witness for C1: the second message of a concrete create batch is
about to expire and gets extended, and the renewal of claim cu rewrites
the record of message m2. -/
theorem c1_claim_message_binding_witness :
    (∃ m m2, [msgFresh, msgShort].get? 1 = some m ∧
      ((createIter emptyStore "c1c" 10 5 [msgFresh, msgShort] 100).1.2).get?
          1 = some m2 ∧
      ClaimBound "c1c" 10 5 100 m m2) ∧
    (∃ m2, alookup sUpdRes.messages "m2" = some m2 ∧
      ClaimBound "cu" 10 5 200 msgShort m2) :=
  ⟨(c1_claim_message_binding emptyStore "c1c" 10 5 100).1
      [msgFresh, msgShort] (by decide) 1 (by decide),
   (c1_claim_message_binding sU "cu" 10 5 200).2 sUpdRes (by decide)
      (by decide) (by decide) "m2" (by decide) msgShort (by decide)⟩

/-- C2 counterexample: the store after a create with ttl = 0 at instant
100 holds a claim whose stored expires (100) is not strictly greater
than now (100), yet the existence check answers true and a get at the
creation instant does not fail, refuting the claimed iff and the
immediate non-existence of a ttl = 0 claim. -/
theorem c2_counterexample :
    _exists sC2 "c2cl" 100 = .ok true ∧
    alookup sC2.claim_records "c2cl" =
      some { id := "c2cl", t := 0, e := 100 } ∧
    ¬ ((100 : Int) > 100) ∧
    get sC2 "c2cl" 100 ≠ .error .claimDoesNotExist := by decide

/-- C2 (amended): a claim exists iff its id is a member of claims_set
and its stored expires is at least now (the source rejects only
now > expires); consequently a claim created with ttl = 0 still exists
at its creation instant, and a get performed strictly after creation
fails with ClaimDoesNotExist. -/
theorem c2_exists_iff_amended (s : Store) (cid : String) (now : Int)
    (grace : Int) (msg_list : List Message) (t t2 : Int) (h : t < t2) :
    (_exists s cid now = .ok true ↔
      cid ∈ s.claims_set ∧
        ∃ r, alookup s.claim_records cid = some r ∧ now ≤ r.e) ∧
    _exists (createCommit s cid 0 grace msg_list t).2 cid t = .ok true ∧
    get (createCommit s cid 0 grace msg_list t).2 cid t2 =
      .error .claimDoesNotExist := by
  refine ⟨exists_ok_true_iff s cid now, ?_, ?_⟩
  · exact (exists_ok_true_iff _ cid t).mpr
      ⟨createCommit_mem_claims_set s cid 0 grace msg_list t,
       ⟨{ id := cid, t := 0, e := t + 0 },
        createCommit_claim_record s cid 0 grace msg_list t,
        by show t ≤ t + 0; omega⟩⟩
  · have hex : _exists (createCommit s cid 0 grace msg_list t).2 cid t2 =
        .ok false :=
      exists_ok_false_expired _ cid t2 _
        (createCommit_claim_record s cid 0 grace msg_list t)
        (by show t2 > t + 0; omega)
    simp [get, hex]

/-- Witness for C2 (amended) at a concrete create with ttl = 0 at
instant 100, observed at 100 and at 101. -/
theorem c2_exists_iff_amended_witness :
    (_exists emptyStore "c2cl" 100 = .ok true ↔
      "c2cl" ∈ emptyStore.claims_set ∧
        ∃ r, alookup emptyStore.claim_records "c2cl" = some r ∧
          100 ≤ r.e) ∧
    _exists (createCommit emptyStore "c2cl" 0 60 [msgFresh] 100).2 "c2cl"
        100 = .ok true ∧
    get (createCommit emptyStore "c2cl" 0 60 [msgFresh] 100).2 "c2cl" 101 =
      .error .claimDoesNotExist :=
  c2_exists_iff_amended emptyStore "c2cl" 100 60 [msgFresh] 100 101
    (by decide)

/-- C3: a create whose pass reads no active messages succeeds with an
absent claim id and an empty message list, leaving the whole store —
claimed counter, claims set, claim records and message records —
unchanged. -/
theorem c3_create_empty_queue (s : Store) (cid : String)
    (ttl grace start_ts : Int) (env : LoopEnv) (rest : List LoopEnv)
    (hb : env.batch = []) (hin : withinBudget start_ts env = true) :
    createLoop s cid ttl grace start_ts (env :: rest) =
      .ok ((none, []), s) := by
  have hin2 : env.loop_now - start_ts < RETRY_CLAIM_TIMEOUT := by
    simpa [withinBudget] using hin
  simp [createLoop, hin2, hb]

/-- Witness for C3: an in-budget pass over an empty active batch on a
concrete store returns the empty result and the store itself. -/
theorem c3_create_empty_queue_witness :
    createLoop sDel "c3" 30 10 0 [envEmpty] = .ok ((none, []), sDel) :=
  c3_create_empty_queue sDel "c3" 30 10 0 envEmpty [] (by decide)
    (by decide)

/-- C4: create raises ClaimConflict exactly when every pass started
inside the wall-clock budget RETRY_CLAIM_TIMEOUT (10 seconds) read a
non-empty batch and aborted on the watch; an aborted pass commits
nothing — it is dropped from the loop, which retries against the
unchanged store with the fresh batch and clock of the next pass. -/
theorem c4_conflict_iff (s : Store) (cid : String)
    (ttl grace start_ts : Int) (envs : List LoopEnv)
    (hterm : envs.dropWhile (withinBudget start_ts) ≠ []) :
    RETRY_CLAIM_TIMEOUT = 10 ∧
    (createLoop s cid ttl grace start_ts envs = .error .claimConflict ↔
      ∀ env ∈ envs.takeWhile (withinBudget start_ts),
        env.batch ≠ [] ∧ env.watch_fired = true) ∧
    (∀ env rest, withinBudget start_ts env = true → env.batch ≠ [] →
      env.watch_fired = true →
      createLoop s cid ttl grace start_ts (env :: rest) =
        createLoop s cid ttl grace start_ts rest) :=
  ⟨rfl, createLoop_conflict_iff s cid ttl grace start_ts envs hterm,
   fun env rest h1 h2 h3 =>
     createLoop_skip_aborted s cid ttl grace start_ts env rest h1 h2 h3⟩

/-- Witness for C4: with one in-budget aborting pass and one pass
observed after the budget, create fails with ClaimConflict. -/
theorem c4_conflict_iff_witness :
    RETRY_CLAIM_TIMEOUT = 10 ∧
    (createLoop emptyStore "c4" 30 10 0 [envFail, envLate] =
        .error .claimConflict ↔
      ∀ env ∈ ([envFail, envLate].takeWhile (withinBudget 0)),
        env.batch ≠ [] ∧ env.watch_fired = true) ∧
    (∀ env rest, withinBudget 0 env = true → env.batch ≠ [] →
      env.watch_fired = true →
      createLoop emptyStore "c4" 30 10 0 (env :: rest) =
        createLoop emptyStore "c4" 30 10 0 rest) :=
  c4_conflict_iff emptyStore "c4" 30 10 0 [envFail, envLate] (by decide)

/-- C5: the source violates the claimed ordering: within one pass of
the retry loop the active batch is read (claims.py lines 190-194)
before the watch on claimed_counter is placed (line 213).  The trace of
one committing pass orders readActiveBatch strictly before
watchCounter, then stageWrites, then execCommit, and the watch is never
in place before the batch read. -/
theorem c5_read_batch_precedes_watch :
    (createIterTrace false).indexOf .readActiveBatch <
      (createIterTrace false).indexOf .watchCounter ∧
    (createIterTrace false).indexOf .watchCounter <
      (createIterTrace false).indexOf .stageWrites ∧
    (createIterTrace false).indexOf .stageWrites <
      (createIterTrace false).indexOf .execCommit ∧
    ¬ (createIterTrace false).indexOf .watchCounter <
        (createIterTrace false).indexOf .readActiveBatch := by decide

/-- C6: delete is idempotent — performing it twice in sequence equals
performing it once — and a delete of a non-existing claim (id absent
from claims_set, which covers never-created, already-deleted and
ill-formed ids, or a passively expired claim) returns silently with a
success value instead of raising. -/
theorem c6_delete_idempotent (s : Store) (cid : String) (now : Int) :
    ((delete s cid now).bind (fun s2 => delete s2 cid now) =
      delete s cid now) ∧
    (cid ∉ s.claims_set ∨
        (∃ r, alookup s.claim_records cid = some r ∧ now > r.e) →
      ∃ s2, delete s cid now = .ok s2) := by
  constructor
  · cases hex : _exists s cid now with
    | error e =>
      have hd : delete s cid now = .error e := by simp [delete, hex]
      rw [hd]
      rfl
    | ok b =>
      cases b with
      | false =>
        have hd := delete_ok_false s cid now hex
        rw [hd]
        simpa [Except.bind] using hd
      | true =>
        rw [delete_ok_true s cid now hex]
        simp only [Except.bind]
        exact delete_ok_false _ cid now
          (exists_ok_false_not_mem _ cid now (not_mem_filter_ne _ _))
  · intro h
    rcases h with h | ⟨r, hr, he⟩
    · exact ⟨s, delete_ok_false s cid now
        (exists_ok_false_not_mem s cid now h)⟩
    · exact ⟨s, delete_ok_false s cid now
        (exists_ok_false_expired s cid now r hr he)⟩

/-- Witness for C6: double delete of the live claim cd equals a single
delete, and deleting the absent id nope returns ok. -/
theorem c6_delete_idempotent_witness :
    ((delete sDel "cd" 100).bind (fun s2 => delete s2 "cd" 100) =
      delete sDel "cd" 100) ∧
    (∃ s2, delete sDel "nope" 100 = .ok s2) :=
  ⟨(c6_delete_idempotent sDel "cd" 100).1,
   (c6_delete_idempotent sDel "nope" 100).2 (Or.inl (by decide))⟩

/-- C7 counterexample: claim cg lists one message id whose record was
independently deleted, so zero of its messages are still present; the
claim as stated demands that the counter stay 5, but delete decrements
it by the id-list length 1, leaving 4. -/
theorem c7_counterexample :
    delete sC7ce "cg" 100 =
      .ok { claims_set := [], claim_records := [], claim_msg_lists := [],
            messages := [], claimed_counter := 4 } ∧
    (4 : Int) ≠ 5 := by decide

/-- C7 (amended): deleting an existing claim removes its id from
claims_set, deletes the claim record and the per-claim message list,
rewrites each still-present claimed message with claim_id absent and
claim_expires = now while leaving all other message records unchanged,
and decrements claimed_counter by the length of the stored message id
list — counting independently deleted messages as well. -/
theorem c7_delete_effect_amended (s : Store) (cid : String) (now : Int)
    (hkeyed : WellKeyed s.messages) (hnd : (claimMsgKeys s cid).Nodup)
    (hex : _exists s cid now = .ok true) :
    ∃ s2, delete s cid now = .ok s2 ∧
      cid ∉ s2.claims_set ∧
      alookup s2.claim_records cid = none ∧
      alookup s2.claim_msg_lists (scope_claim_messages cid) = none ∧
      (∀ k ∈ claimMsgKeys s cid, ∀ m, alookup s.messages k = some m →
        alookup s2.messages k =
          some { m with claim_id := none, claim_expires := now }) ∧
      (∀ k, k ∉ claimMsgKeys s cid →
        alookup s2.messages k = alookup s.messages k) ∧
      s2.claimed_counter =
        s.claimed_counter - (claimMsgKeys s cid).length := by
  refine ⟨_, delete_ok_true s cid now hex, not_mem_filter_ne _ _,
    alookup_adel_self _ _, alookup_adel_self _ _, ?_, ?_, ?_⟩
  · intro k hk m hm
    exact writeBack_filterMap_lookup s.messages (claimMsgKeys s cid)
      (fun m => { m with claim_id := none, claim_expires := now })
      (fun m => rfl) hkeyed hnd k hk m hm
  · intro k hk
    exact writeBack_filterMap_lookup_not_mem s.messages
      (claimMsgKeys s cid)
      (fun m => { m with claim_id := none, claim_expires := now })
      (fun m => rfl) hkeyed k hk
  · simp only [List.length_map]
    ring

/-- Witness for C7 (amended): deleting the live claim cd, whose id list
names present p1 and missing dg, releases p1 and decrements the counter
by 2. -/
theorem c7_delete_effect_amended_witness :
    ∃ s2, delete sDel "cd" 100 = .ok s2 ∧
      "cd" ∉ s2.claims_set ∧
      alookup s2.claim_records "cd" = none ∧
      alookup s2.claim_msg_lists (scope_claim_messages "cd") = none ∧
      (∀ k ∈ claimMsgKeys sDel "cd", ∀ m,
        alookup sDel.messages k = some m →
        alookup s2.messages k =
          some { m with claim_id := none, claim_expires := 100 }) ∧
      (∀ k, k ∉ claimMsgKeys sDel "cd" →
        alookup s2.messages k = alookup sDel.messages k) ∧
      s2.claimed_counter =
        sDel.claimed_counter - (claimMsgKeys sDel "cd").length :=
  c7_delete_effect_amended sDel "cd" 100 (by decide) (by decide)
    (by decide)

/-- C8: get on an existing claim returns claim_meta holding the claim
id, the stored ttl and age = now - (expires - ttl) computed from the
stored claim record, together with the materialisations of the message
id list of the claim with every empty materialisation dropped; when the
existence check is negative, get fails with ClaimDoesNotExist. -/
theorem c8_get_spec (s : Store) (cid : String) (now : Int) :
    (_exists s cid now = .ok false →
      get s cid now = .error .claimDoesNotExist) ∧
    (_exists s cid now = .ok true →
      ∃ r, alookup s.claim_records cid = some r ∧
        get s cid now =
          .ok ({ age := now - (r.e - r.t), ttl := r.t, id := cid },
               (claimMsgKeys s cid).filterMap (alookup s.messages))) := by
  constructor
  · intro h
    simp [get, h]
  · intro h
    obtain ⟨-, r, hr, -⟩ := (exists_ok_true_iff s cid now).mp h
    refine ⟨r, hr, ?_⟩
    have hmm : ((claimMsgKeys s cid).map (alookup s.messages)).filterMap
        id = (claimMsgKeys s cid).filterMap (alookup s.messages) := by
      rw [List.filterMap_map]
      rfl
    simp only [get, h, hr, hmm]

/-- Witness for C8: get of the absent id nope fails, and get of the
live claim cu returns its stored meta and the surviving messages. -/
theorem c8_get_spec_witness :
    get sU "nope" 200 = .error .claimDoesNotExist ∧
    (∃ r, alookup sU.claim_records "cu" = some r ∧
      get sU "cu" 200 =
        .ok ({ age := 200 - (r.e - r.t), ttl := r.t, id := "cu" },
             (claimMsgKeys sU "cu").filterMap (alookup sU.messages))) :=
  ⟨(c8_get_spec sU "nope" 200).1 (by decide),
   (c8_get_spec sU "cu" 200).2 (by decide)⟩

/-- C9: update on a live claim rebinds every key of the stored message
id list that still materialises — its claim_id is set to this claim and
its claim_expires to the new expiry now + ttl — with no condition on
the prior claim_id of the message, including one currently referencing
a different claim. -/
theorem c9_update_rebinds (s : Store) (cid : String)
    (ttl grace now : Int) (s2 : Store)
    (hup : update s cid ttl grace now = .ok s2)
    (hkeyed : WellKeyed s.messages) (hnd : (claimMsgKeys s cid).Nodup)
    (k : String) (hk : k ∈ claimMsgKeys s cid) (m : Message)
    (hm : alookup s.messages k = some m) :
    ∃ m2, alookup s2.messages k = some m2 ∧
      m2.claim_id = some cid ∧ m2.claim_expires = now + ttl := by
  refine ⟨bindMsg cid (now + ttl) (now + ttl + grace) (ttl + grace) m,
    update_writes s cid ttl grace now s2 hup hkeyed hnd k hk m hm, ?_, ?_⟩
  · exact (bindMsg_spec cid (now + ttl) (now + ttl + grace)
      (ttl + grace) m).1
  · exact (bindMsg_spec cid (now + ttl) (now + ttl + grace)
      (ttl + grace) m).2.1

/-- Witness for C9: renewing claim cu rebinds message m3 even though
its claim_id referenced the different claim other. -/
theorem c9_update_rebinds_witness :
    msgOther.claim_id = some "other" ∧
    (∃ m2, alookup sUpdRes.messages "m3" = some m2 ∧
      m2.claim_id = some "cu" ∧ m2.claim_expires = 200 + 10) :=
  ⟨by decide,
   c9_update_rebinds sU "cu" 10 5 200 sUpdRes (by decide) (by decide)
     (by decide) "m3" (by decide) msgOther (by decide)⟩

/-- C10 counterexample: claim cx has stored expires 100, which is not
strictly in the future at now = 100, yet delete mutates the store: it
removes the claim and leaves the empty store. -/
theorem c10_counterexample :
    ¬ ((100 : Int) < 100) ∧
    alookup sEdge.claim_records "cx" =
      some { id := "cx", t := 0, e := 100 } ∧
    delete sEdge "cx" 100 = .ok emptyStore ∧
    emptyStore ≠ sEdge := by decide

/-- C10 (amended): delete on a claim whose id is absent from claims_set
or whose stored expires is strictly in the past (now > expires)
modifies no store state at all: the stale claims_set membership, the
claim record, the per-claim message list, the claim bindings of the
messages and claimed_counter stay exactly as they were. -/
theorem c10_delete_frame_amended (s : Store) (cid : String) (now : Int)
    (h : cid ∉ s.claims_set ∨
      ∃ r, alookup s.claim_records cid = some r ∧ now > r.e) :
    delete s cid now = .ok s := by
  rcases h with h | ⟨r, hr, he⟩
  · exact delete_ok_false s cid now (exists_ok_false_not_mem s cid now h)
  · exact delete_ok_false s cid now
      (exists_ok_false_expired s cid now r hr he)

/-- Witness for C10 (amended): deleting the passively expired claim ce
at instant 200 returns the store unchanged, stale bindings included. -/
theorem c10_delete_frame_amended_witness :
    delete sExp "ce" 200 = .ok sExp :=
  c10_delete_frame_amended sExp "ce" 200
    (Or.inr ⟨{ id := "ce", t := 5, e := 100 }, by decide, by decide⟩)

end Zaqar
